import Mathlib

/-!
Verification of the SSSD NSS-client initgroups memory-cache lookup
(`src/sss_client/nss_mc_initgr.c`).

The two functions of that file, `sss_nss_mc_parse_result` and
`sss_nss_mc_initgroups_dyn`, are embedded shallowly below.  C `long int`
variables (`start`, `size`, `limit`, `max_ret`, `newsize`) become `Int`;
the `uint32_t` fields become `Nat`; the caller-owned gid buffer becomes a
`List Nat` whose length is the allocated capacity; `realloc` becomes a
pure resize whose fresh cells are filled by an arbitrary function `fill`
(modelling uninitialised memory), with a Boolean `allocOk` modelling
whether the allocation succeeds.  The unbounded C `while` loop over the
collision chain is given a fuel parameter; running out of fuel returns
`none` (the C loop has no cycle guard and may not terminate).

Declarations from headers and common files that are not part of the
sources (`struct sss_mc_rec`, `struct sss_mc_initgr_data`,
`MC_SLOT_WITHIN_BOUNDS`, `MC_INVALID_VAL`, `sss_nss_mc_get_ctx`,
`sss_nss_mc_get_record`, `sss_nss_mc_next_slot_with_hash`,
`sss_nss_mc_hash`) are modelled from the specification document, as
noted on each definition.
-/

namespace SssMc

/-- Errno value 0, success. -/
def EOK : Nat := 0

/-- Errno value ENOENT, the code's NotFound result. -/
def ENOENT : Nat := 2

/-- Errno value ENOMEM, the code's AllocationFailure result. -/
def ENOMEM : Nat := 12

/-- Errno value EINVAL, the code's Expired result (also used here for
context and record-fetch failures). -/
def EINVAL : Nat := 22

/-- Modelled from the spec: the Invalid sentinel slot value
(`MC_INVALID_VAL`, an all-ones 32-bit value, never within the arena
bounds for any real arena). -/
def mcInvalidVal : Nat := 4294967295

/-- A cache-arena Record, following the spec's data model
`{ primary_hash, expire_time, key_offset, key_length, payload_offset,
payload_count, next_same_hash }`.  Modelled from the spec: the concrete
struct layouts (`struct sss_mc_rec`, `struct sss_mc_initgr_data`) are
declared in headers outside the sources; `keyOffset` stands for the byte
offset of the record's name string from the record's address (the C
expression `rec->data + data->name`), `payloadOffset` for the byte
offset of the gid array (`(uint8_t *)data->gids - (uint8_t *)rec`),
`key` for the NUL-terminated name string stored there, `gids` for the
32-bit values the payload bytes decode to, and `next` for the
next-slot-with-same-hash chain link. -/
structure MCRec where
  hash1 : Nat
  expire : Int
  keyOffset : Nat
  key : List Nat
  payloadOffset : Nat
  members : Nat
  gids : List Nat
  next : Nat
deriving Repr, DecidableEq

/-- The caller-owned growable result buffer of `initgroups_dyn`:
`start` is the cursor of already-filled entries (C `*start`), `size`
the allocated capacity in entries (C `*size`), `groups` the buffer
contents (C `*groups`, one list element per allocated entry). -/
structure BufState where
  start : Int
  size : Int
  groups : List Nat
deriving Repr, DecidableEq

/-- The memory-cache context (`struct sss_cli_mc_ctx`).  Modelled from
the spec: `valid` abstracts whether `sss_nss_mc_get_ctx` succeeds,
`dtSize` is the data-table extent in bytes (`dt_size`), `hashTable` the
hash index (entry = starting Slot Offset), `records` the arena contents
viewed as a partial map from byte offset to the Record stored there
(`sss_nss_mc_get_record`), `hashFn` the hash function applied to the
key bytes including the terminator (`sss_nss_mc_hash`), and
`activeThreads` the reader count. -/
structure MCCtx where
  valid : Bool
  dtSize : Nat
  hashTable : List Nat
  records : Nat → Option MCRec
  hashFn : List Nat → Nat
  activeThreads : Nat

/-- Modelled from the spec: the in-record forward link to the next slot
with the same hash (`sss_nss_mc_next_slot_with_hash`). -/
def sss_nss_mc_next_slot_with_hash (r : MCRec) (_hash : Nat) : Nat :=
  r.next

/-- Modelled from the spec: `MC_SLOT_WITHIN_BOUNDS` — a Slot Offset is
only dereferenced when it lies within `[0, extent)`. -/
def MC_SLOT_WITHIN_BOUNDS (slot dtSize : Nat) : Bool :=
  slot < dtSize

/-- Resize of the caller buffer by `realloc` to `newsize` entries: the
first `min newsize groups.length` entries are preserved, fresh cells
hold unspecified values given by `fill`. -/
def reallocList (groups : List Nat) (newsize : Nat) (fill : Nat → Nat) : List Nat :=
  groups.take newsize ++ (List.range (newsize - groups.length)).map fill

/-- The copy loop of `sss_nss_mc_parse_result`:
`for (i = 0; i < max_ret; i++) { SAFEALIGN_COPY_UINT32(&(*groups)[*start], data->gids + i, NULL); *start += 1; }`
copying `n` entries of `gids` starting at source index `i` into
`groups` starting at cursor `s`. -/
def copyGids (gids : List Nat) : List Nat → Int → Nat → Nat → List Nat × Int
  | groups, s, _, 0 => (groups, s)
  | groups, s, i, n + 1 =>
      copyGids gids (groups.set s.toNat (gids.getD i 0)) (s + 1) (i + 1) n

/-- Embedding of `sss_nss_mc_parse_result` (nss_mc_initgr.c:38-84).
`now` is the value of `time(NULL)`; `allocOk` tells whether the
`realloc` call succeeds; `fill` gives the contents of freshly allocated
cells.  Returns the errno result together with the final buffer
state. -/
def sss_nss_mc_parse_result (r : MCRec) (st : BufState) (limit : Int)
    (allocOk : Bool) (now : Int) (fill : Nat → Nat) : Nat × BufState :=
  if r.expire < now then
    (EINVAL, st)
  else
    let gidCount : Int := (r.members : Int)
    if st.size - st.start < gidCount then
      let newsize : Int :=
        if 0 < limit ∧ limit < st.size + gidCount then limit
        else st.size + gidCount
      let maxRet : Int :=
        if 0 < limit ∧ limit < st.size + gidCount then newsize - st.start
        else gidCount
      if allocOk then
        let res := copyGids r.gids (reallocList st.groups newsize.toNat fill)
                     st.start 0 maxRet.toNat
        (EOK, ⟨res.2, newsize, res.1⟩)
      else
        (ENOMEM, st)
    else
      let res := copyGids r.gids st.groups st.start 0 r.members
      (EOK, ⟨res.2, st.size, res.1⟩)

/-- The collision-chain `while` loop of `sss_nss_mc_initgroups_dyn`
(nss_mc_initgr.c:113-153), including the post-loop
`!MC_SLOT_WITHIN_BOUNDS` check and the final call to
`sss_nss_mc_parse_result`.  The last argument is fuel: `none` models a
run that does not terminate within the given fuel (the C loop has no
cycle guard). -/
def lookupLoop (ctx : MCCtx) (name : List Nat) (hash : Nat) (st : BufState)
    (limit : Int) (allocOk : Bool) (now : Int) (fill : Nat → Nat) :
    Nat → Nat → Option (Nat × BufState)
  | _, 0 => none
  | slot, fuel + 1 =>
    if MC_SLOT_WITHIN_BOUNDS slot ctx.dtSize then
      match ctx.records slot with
      | none => some (EINVAL, st)
      | some r =>
        if r.hash1 ≠ hash then
          lookupLoop ctx name hash st limit allocOk now fill
            (sss_nss_mc_next_slot_with_hash r hash) fuel
        else if ctx.dtSize < slot + r.payloadOffset ∨
                ctx.dtSize < slot + r.keyOffset + name.length then
          some (ENOENT, st)
        else if r.key = name then
          some (sss_nss_mc_parse_result r st limit allocOk now fill)
        else
          lookupLoop ctx name hash st limit allocOk now fill
            (sss_nss_mc_next_slot_with_hash r hash) fuel
    else
      some (ENOENT, st)

/-- Embedding of `sss_nss_mc_initgroups_dyn` (nss_mc_initgr.c:86-159).
The key is `name` (its bytes, without the terminator; `name_len` is
`name.length`).  `sss_nss_mc_get_ctx` is modelled from the spec: on a
valid context it increments the reader count and the lookup proceeds;
on an invalid one it fails with an error, leaving the reader count
unchanged.  The result is `none` when the chain walk exhausts its fuel,
otherwise `some (ret, final buffer state, final reader count)`; the
`done:` label frees the record and decrements `active_threads`. -/
def sss_nss_mc_initgroups_dyn (ctx : MCCtx) (name : List Nat) (_group : Nat)
    (st : BufState) (limit : Int) (allocOk : Bool) (now : Int)
    (fill : Nat → Nat) (fuel : Nat) : Option (Nat × BufState × Nat) :=
  if ctx.valid then
    let readers := ctx.activeThreads + 1
    let hash := ctx.hashFn (name ++ [0])
    let slot := ctx.hashTable.getD hash mcInvalidVal
    match lookupLoop ctx name hash st limit allocOk now fill slot fuel with
    | none => none
    | some (ret, st') => some (ret, st', readers - 1)
  else
    some (EINVAL, st, ctx.activeThreads)

/-- The bounds check the specification requires of the Record
Validator: the payload end address
`record_address + payload_offset + payload_count*4` must not exceed
`arena_base + extent`.  Stated here to compare with the check the code
actually performs. -/
def payloadEndInBounds (slot : Nat) (r : MCRec) (dtSize : Nat) : Bool :=
  slot + r.payloadOffset + r.members * 4 ≤ dtSize

/-- A record whose gid array starts within the arena (offset 96 of an
extent-100 arena) but whose payload end `0 + 96 + 5*4 = 116` lies past
the extent; its key (`"A"`, i.e. byte 65) and name-string bounds are
fine. -/
def recC1 : MCRec :=
  ⟨0, 1000, 40, [65], 96, 5, [11, 12, 13, 14, 15], mcInvalidVal⟩

/-- Arena of extent 100 whose hash index sends hash 0 to slot 0, where
`recC1` lives. -/
def ctxC1 : MCCtx :=
  ⟨true, 100, [0], fun s => if s = 0 then some recC1 else none, fun _ => 0, 7⟩

/-- First candidate on the hash-0 chain: its gid array starts at offset
`0 + 200`, past the extent 100, so the integrity check rejects it; its
chain link points at slot 50. -/
def recA : MCRec := ⟨0, 1000, 40, [65], 200, 1, [11], 50⟩

/-- Second candidate on the hash-0 chain, at slot 50: fully in bounds
(payload end `50 + 10 + 4 = 64 ≤ 100`, key end `50 + 20 + 1 = 71 ≤
100`), matching key, unexpired. -/
def recB : MCRec := ⟨0, 1000, 20, [65], 10, 1, [7], mcInvalidVal⟩

/-- Arena of extent 100 whose hash-0 chain is `recA` (out of bounds) →
`recB` (valid match). -/
def ctxC2 : MCCtx :=
  ⟨true, 100, [0],
   fun s => if s = 0 then some recA else if s = 50 then some recB else none,
   fun _ => 0, 7⟩

/-- A fully in-bounds record with key `"A"`, expiry time 1000 and
payload `[11, 12, 13]`. -/
def recHit : MCRec :=
  ⟨0, 1000, 40, [65], 60, 3, [11, 12, 13], mcInvalidVal⟩

/-- Arena of extent 100 holding `recHit` at slot 0. -/
def ctxHit : MCCtx :=
  ⟨true, 100, [0], fun s => if s = 0 then some recHit else none, fun _ => 0, 7⟩

/-- A fully in-bounds record with key `"A"`, expiry time 1000 and
payload `[11, 12, 13, 14, 15]` (payload end `0 + 60 + 20 = 80 ≤ 100`). -/
def recG5 : MCRec :=
  ⟨0, 1000, 40, [65], 60, 5, [11, 12, 13, 14, 15], mcInvalidVal⟩

/-- Arena of extent 100 holding `recG5` at slot 0. -/
def ctxG5 : MCCtx :=
  ⟨true, 100, [0], fun s => if s = 0 then some recG5 else none, fun _ => 0, 7⟩

/-- Arena whose hash index maps every hash to the Invalid sentinel. -/
def ctxMiss : MCCtx :=
  ⟨true, 100, [mcInvalidVal], fun _ => none, fun _ => 0, 7⟩

/-! Helper lemmas about `List.set`, `List.take` and `List.drop`. -/

theorem take_set_le (v : Nat) :
    ∀ (l : List Nat) (k m : Nat), m ≤ k → (l.set k v).take m = l.take m := by
  intro l
  induction l with
  | nil => intro k m _; simp
  | cons x xs ih =>
    intro k m h
    cases m with
    | zero => simp
    | succ m =>
      cases k with
      | zero => omega
      | succ k =>
        show x :: (xs.set k v).take m = x :: xs.take m
        rw [ih k m (by omega)]

theorem drop_set_lt (v : Nat) :
    ∀ (l : List Nat) (k m : Nat), k < m → (l.set k v).drop m = l.drop m := by
  intro l
  induction l with
  | nil => intro k m _; simp
  | cons x xs ih =>
    intro k m h
    cases m with
    | zero => omega
    | succ m =>
      cases k with
      | zero => rfl
      | succ k =>
        show (xs.set k v).drop m = xs.drop m
        exact ih k m (by omega)

theorem take_set_succ (v : Nat) :
    ∀ (l : List Nat) (k : Nat), k < l.length →
      (l.set k v).take (k + 1) = l.take k ++ [v] := by
  intro l
  induction l with
  | nil => intro k h; simp at h
  | cons x xs ih =>
    intro k h
    cases k with
    | zero => simp
    | succ k =>
      show x :: (xs.set k v).take (k + 1) = x :: (xs.take k ++ [v])
      rw [ih k (by simpa using h)]

theorem getElem?_eq_of_take_eq {l l' : List Nat} {m k : Nat}
    (h : l.take m = l'.take m) (hk : k < m) : l[k]? = l'[k]? := by
  have h1 : (l.take m)[k]? = l[k]? := by simp [List.getElem?_take, hk]
  have h2 : (l'.take m)[k]? = l'[k]? := by simp [List.getElem?_take, hk]
  rw [← h1, ← h2, h]

/-! Lemmas about the copy loop `copyGids`. -/

theorem copyGids_snd (gids : List Nat) :
    ∀ (n : Nat) (groups : List Nat) (s : Int) (i : Nat),
      (copyGids gids groups s i n).2 = s + n := by
  intro n
  induction n with
  | zero => intro groups s i; simp [copyGids]
  | succ n ih =>
    intro groups s i
    rw [copyGids, ih]
    omega

theorem copyGids_length (gids : List Nat) :
    ∀ (n : Nat) (groups : List Nat) (s : Int) (i : Nat),
      (copyGids gids groups s i n).1.length = groups.length := by
  intro n
  induction n with
  | zero => intro groups s i; simp [copyGids]
  | succ n ih =>
    intro groups s i
    rw [copyGids, ih, List.length_set]

theorem copyGids_take (gids : List Nat) :
    ∀ (n : Nat) (groups : List Nat) (s : Int) (i : Nat), 0 ≤ s →
      (copyGids gids groups s i n).1.take s.toNat = groups.take s.toNat := by
  intro n
  induction n with
  | zero => intro groups s i _; simp [copyGids]
  | succ n ih =>
    intro groups s i hs
    rw [copyGids]
    have hmin : min s.toNat (s + 1).toNat = s.toNat := by omega
    have ih' := ih (groups.set s.toNat (gids.getD i 0)) (s + 1) (i + 1) (by omega)
    have e1 : (copyGids gids (groups.set s.toNat (gids.getD i 0)) (s + 1) (i + 1) n).1.take s.toNat
        = ((copyGids gids (groups.set s.toNat (gids.getD i 0)) (s + 1) (i + 1) n).1.take
            (s + 1).toNat).take s.toNat := by
      rw [List.take_take, hmin]
    rw [e1, ih', List.take_take, hmin, take_set_le _ _ _ _ (le_refl s.toNat)]

theorem copyGids_append (gids : List Nat) :
    ∀ (n : Nat) (groups : List Nat) (s : Int) (i : Nat), 0 ≤ s →
      s.toNat + n ≤ groups.length → i + n ≤ gids.length →
      (copyGids gids groups s i n).1
        = groups.take s.toNat ++ (gids.drop i).take n ++ groups.drop (s.toNat + n) := by
  intro n
  induction n with
  | zero =>
    intro groups s i _ _ _
    simp [copyGids]
  | succ n ih =>
    intro groups s i hs hg hgids
    have hsl : s.toNat < groups.length := by omega
    have hi : i < gids.length := by omega
    rw [copyGids]
    have ihg := ih (groups.set s.toNat (gids.getD i 0)) (s + 1) (i + 1) (by omega)
      (by rw [List.length_set]; omega) (by omega)
    rw [ihg]
    have h1 : (s + 1).toNat = s.toNat + 1 := by omega
    rw [h1]
    rw [take_set_succ _ _ _ hsl]
    rw [drop_set_lt _ _ _ _ (by omega)]
    have h4 : gids.drop i = gids.getD i 0 :: gids.drop (i + 1) := by
      rw [List.drop_eq_getElem_cons hi, List.getD_eq_getElem gids 0 hi]
    rw [h4]
    have h5 : s.toNat + 1 + n = s.toNat + (n + 1) := by omega
    rw [h5]
    simp [List.take_succ_cons, List.append_assoc]

/-! Lemmas about `reallocList`. -/

theorem reallocList_length (groups : List Nat) (n : Nat) (fill : Nat → Nat) :
    (reallocList groups n fill).length = n := by
  simp [reallocList]
  omega

theorem reallocList_take (groups : List Nat) (n m : Nat) (fill : Nat → Nat)
    (h1 : m ≤ n) (h2 : m ≤ groups.length) :
    (reallocList groups n fill).take m = groups.take m := by
  have h3 : m ≤ (groups.take n).length := by simp; omega
  rw [reallocList, List.take_append_of_le_length h3, List.take_take]
  congr 1
  omega

/-! Branch lemmas for `sss_nss_mc_parse_result`. -/

theorem parse_expired (r : MCRec) (st : BufState) (limit : Int)
    (allocOk : Bool) (now : Int) (fill : Nat → Nat) (hexp : r.expire < now) :
    sss_nss_mc_parse_result r st limit allocOk now fill = (EINVAL, st) := by
  unfold sss_nss_mc_parse_result
  rw [if_pos hexp]

theorem parse_fit (r : MCRec) (st : BufState) (limit : Int)
    (allocOk : Bool) (now : Int) (fill : Nat → Nat)
    (hexp : ¬ r.expire < now)
    (hfit : ¬ st.size - st.start < (r.members : Int)) :
    sss_nss_mc_parse_result r st limit allocOk now fill
      = (EOK, ⟨st.start + r.members, st.size,
          (copyGids r.gids st.groups st.start 0 r.members).1⟩) := by
  unfold sss_nss_mc_parse_result
  rw [if_neg hexp]
  dsimp only
  rw [if_neg hfit, copyGids_snd]

theorem parse_grow_nomem (r : MCRec) (st : BufState) (limit : Int)
    (now : Int) (fill : Nat → Nat)
    (hexp : ¬ r.expire < now)
    (hlt : st.size - st.start < (r.members : Int)) :
    sss_nss_mc_parse_result r st limit false now fill = (ENOMEM, st) := by
  unfold sss_nss_mc_parse_result
  rw [if_neg hexp]
  dsimp only
  rw [if_pos hlt]
  simp

theorem parse_grow_noclamp (r : MCRec) (st : BufState) (limit : Int)
    (now : Int) (fill : Nat → Nat)
    (hexp : ¬ r.expire < now)
    (hlt : st.size - st.start < (r.members : Int))
    (hnc : ¬ (0 < limit ∧ limit < st.size + (r.members : Int))) :
    sss_nss_mc_parse_result r st limit true now fill
      = (EOK, ⟨st.start + r.members, st.size + (r.members : Int),
          (copyGids r.gids
            (reallocList st.groups (st.size + (r.members : Int)).toNat fill)
            st.start 0 r.members).1⟩) := by
  unfold sss_nss_mc_parse_result
  rw [if_neg hexp]
  dsimp only
  rw [if_pos hlt, if_neg hnc, if_neg hnc, copyGids_snd]
  simp

theorem parse_grow_clamp (r : MCRec) (st : BufState) (limit : Int)
    (now : Int) (fill : Nat → Nat)
    (hexp : ¬ r.expire < now)
    (hlt : st.size - st.start < (r.members : Int))
    (hc : 0 < limit ∧ limit < st.size + (r.members : Int))
    (hsl : st.start ≤ limit) :
    sss_nss_mc_parse_result r st limit true now fill
      = (EOK, ⟨limit, limit,
          (copyGids r.gids (reallocList st.groups limit.toNat fill)
            st.start 0 (limit - st.start).toNat).1⟩) := by
  unfold sss_nss_mc_parse_result
  rw [if_neg hexp]
  dsimp only
  rw [if_pos hlt, if_pos hc, if_pos hc, copyGids_snd]
  have : st.start + (((limit - st.start).toNat : Nat) : Int) = limit := by omega
  rw [this]
  simp

/-! Lemmas for the collision-chain loop and the outer entry point. -/

theorem lookupLoop_hit (ctx : MCCtx) (name : List Nat) (hash : Nat)
    (st : BufState) (limit : Int) (allocOk : Bool) (now : Int)
    (fill : Nat → Nat) (slot fuel : Nat) (r : MCRec)
    (hw : slot < ctx.dtSize)
    (hrec : ctx.records slot = some r)
    (hh : r.hash1 = hash)
    (hpb : slot + r.payloadOffset ≤ ctx.dtSize)
    (hkb : slot + r.keyOffset + name.length ≤ ctx.dtSize)
    (hkey : r.key = name) :
    lookupLoop ctx name hash st limit allocOk now fill slot (fuel + 1)
      = some (sss_nss_mc_parse_result r st limit allocOk now fill) := by
  have hw' : MC_SLOT_WITHIN_BOUNDS slot ctx.dtSize = true := by
    simp [MC_SLOT_WITHIN_BOUNDS, hw]
  rw [lookupLoop, if_pos hw']
  simp only [hrec]
  rw [if_neg (by simp [hh]), if_neg (by omega), if_pos hkey]

theorem lookupLoop_cases (ctx : MCCtx) (name : List Nat) (hash : Nat)
    (st : BufState) (limit : Int) (allocOk : Bool) (now : Int)
    (fill : Nat → Nat) :
    ∀ (fuel slot ret : Nat) (st' : BufState),
      lookupLoop ctx name hash st limit allocOk now fill slot fuel
          = some (ret, st') →
      st' = st ∨
        ∃ r, (ret, st') = sss_nss_mc_parse_result r st limit allocOk now fill := by
  intro fuel
  induction fuel with
  | zero => intro slot ret st' h; simp [lookupLoop] at h
  | succ fuel ih =>
    intro slot ret st' h
    rw [lookupLoop] at h
    by_cases hw : MC_SLOT_WITHIN_BOUNDS slot ctx.dtSize = true
    · rw [if_pos hw] at h
      cases hrec : ctx.records slot with
      | none =>
        rw [hrec] at h
        simp only [Option.some.injEq, Prod.mk.injEq] at h
        exact Or.inl h.2.symm
      | some r =>
        rw [hrec] at h
        dsimp only at h
        by_cases hh : r.hash1 ≠ hash
        · rw [if_pos hh] at h
          exact ih _ _ _ h
        · rw [if_neg hh] at h
          by_cases hb : ctx.dtSize < slot + r.payloadOffset ∨
              ctx.dtSize < slot + r.keyOffset + name.length
          · rw [if_pos hb] at h
            simp only [Option.some.injEq, Prod.mk.injEq] at h
            exact Or.inl h.2.symm
          · rw [if_neg hb] at h
            by_cases hk : r.key = name
            · rw [if_pos hk] at h
              exact Or.inr ⟨r, (Option.some.inj h).symm⟩
            · rw [if_neg hk] at h
              exact ih _ _ _ h
    · rw [if_neg hw] at h
      simp only [Option.some.injEq, Prod.mk.injEq] at h
      exact Or.inl h.2.symm

theorem lookup_hit (ctx : MCCtx) (name : List Nat) (g : Nat) (st : BufState)
    (limit : Int) (allocOk : Bool) (now : Int) (fill : Nat → Nat)
    (slot fuel : Nat) (r : MCRec)
    (hv : ctx.valid = true)
    (hslot : ctx.hashTable.getD (ctx.hashFn (name ++ [0])) mcInvalidVal = slot)
    (hw : slot < ctx.dtSize)
    (hrec : ctx.records slot = some r)
    (hh : r.hash1 = ctx.hashFn (name ++ [0]))
    (hpb : slot + r.payloadOffset ≤ ctx.dtSize)
    (hkb : slot + r.keyOffset + name.length ≤ ctx.dtSize)
    (hkey : r.key = name) :
    sss_nss_mc_initgroups_dyn ctx name g st limit allocOk now fill (fuel + 1)
      = some ((sss_nss_mc_parse_result r st limit allocOk now fill).1,
              (sss_nss_mc_parse_result r st limit allocOk now fill).2,
              ctx.activeThreads) := by
  have hloop := lookupLoop_hit ctx name (ctx.hashFn (name ++ [0])) st limit
    allocOk now fill slot fuel r hw hrec hh hpb hkb hkey
  unfold sss_nss_mc_initgroups_dyn
  rw [if_pos hv]
  dsimp only
  rw [hslot, hloop]
  simp

/-- Frame property of `sss_nss_mc_parse_result`: on every branch, the
buffer entries below the cursor are unchanged (for a well-formed buffer
whose cursor is within its capacity and, when a positive limit is set,
within the limit). -/
theorem parse_frame (r : MCRec) (st : BufState) (limit : Int)
    (allocOk : Bool) (now : Int) (fill : Nat → Nat)
    (h0 : 0 ≤ st.start) (h1 : st.start ≤ st.size)
    (h2 : (st.groups.length : Int) = st.size)
    (h3 : 0 < limit → st.start ≤ limit) :
    (sss_nss_mc_parse_result r st limit allocOk now fill).2.groups.take st.start.toNat
      = st.groups.take st.start.toNat := by
  by_cases hexp : r.expire < now
  · rw [parse_expired _ _ _ _ _ _ hexp]
  · by_cases hlt : st.size - st.start < (r.members : Int)
    · cases allocOk with
      | false => rw [parse_grow_nomem _ _ _ _ _ hexp hlt]
      | true =>
        by_cases hc : 0 < limit ∧ limit < st.size + (r.members : Int)
        · rw [parse_grow_clamp _ _ _ _ _ hexp hlt hc (h3 hc.1)]
          dsimp only
          rw [copyGids_take _ _ _ _ _ h0]
          exact reallocList_take _ _ _ _ (by omega) (by omega)
        · rw [parse_grow_noclamp _ _ _ _ _ hexp hlt hc]
          dsimp only
          rw [copyGids_take _ _ _ _ _ h0]
          exact reallocList_take _ _ _ _ (by omega) (by omega)
    · rw [parse_fit _ _ _ _ _ _ hexp hlt]
      dsimp only
      exact copyGids_take _ _ _ _ _ h0

/-! The claims. -/

/-- C1: the claim states that both the payload end address
(`record_address + payload_offset + payload_count*4`) and the key end
address are verified to be within the arena before any payload or key
byte is dereferenced, a violation yielding "not found".  The code
(nss_mc_initgr.c:134) checks only the start address of the gid array,
`(uint8_t *)data->gids > max_addr`, omitting the
`+ data->members * sizeof(uint32_t)` term its own comment ("array with
gids must be within data_table") requires: on this arena of extent 100,
the record's payload ends at `0 + 96 + 5*4 = 116 > 100`, yet the lookup
returns Success and copies all five payload entries — dereferencing
payload bytes past the extent — instead of reporting "not found". -/
theorem C1_code_accepts_oob_payload :
    payloadEndInBounds 0 recC1 ctxC1.dtSize = false
      ∧ ctxC1.records 0 = some recC1
      ∧ 0 + recC1.payloadOffset ≤ ctxC1.dtSize
      ∧ sss_nss_mc_initgroups_dyn ctxC1 [65] 0 ⟨0, 5, [0, 0, 0, 0, 0]⟩ (-1)
          true 5 (fun _ => 0) 2
        = some (EOK, ⟨5, 5, [11, 12, 13, 14, 15]⟩, 7) := by
  refine ⟨by decide, rfl, by decide, by decide⟩

/-- C2 counterexample: the claim states that a bounds rejection
continues the collision chain via `next_same_hash`, NotFound being
returned only when the chain is exhausted.  In `ctxC2` the first
candidate `recA` (slot 0) fails the bounds check but its chain link
points at slot 50 where `recB` — in bounds, matching key, matching
hash, unexpired, and whose extraction would succeed — lives; still the
lookup returns NotFound immediately, without continuing to `recB`. -/
theorem C2_counterexample :
    sss_nss_mc_initgroups_dyn ctxC2 [65] 0 ⟨0, 5, [0, 0, 0, 0, 0]⟩ (-1) true 5
        (fun _ => 0) 5
      = some (ENOENT, ⟨0, 5, [0, 0, 0, 0, 0]⟩, 7)
    ∧ ctxC2.records 0 = some recA
    ∧ recA.hash1 = ctxC2.hashFn ([65] ++ [0])
    ∧ ctxC2.dtSize < 0 + recA.payloadOffset
    ∧ sss_nss_mc_next_slot_with_hash recA (ctxC2.hashFn ([65] ++ [0])) = 50
    ∧ MC_SLOT_WITHIN_BOUNDS 50 ctxC2.dtSize = true
    ∧ ctxC2.records 50 = some recB
    ∧ recB.hash1 = ctxC2.hashFn ([65] ++ [0])
    ∧ recB.key = [65]
    ∧ 50 + recB.payloadOffset + recB.members * 4 ≤ ctxC2.dtSize
    ∧ 50 + recB.keyOffset + [65].length ≤ ctxC2.dtSize
    ∧ ¬ recB.expire < 5
    ∧ sss_nss_mc_parse_result recB ⟨0, 5, [0, 0, 0, 0, 0]⟩ (-1) true 5
        (fun _ => 0)
      = (EOK, ⟨1, 5, [7, 0, 0, 0, 0]⟩) := by
  refine ⟨by decide, rfl, by decide, by decide, by decide, by decide, rfl,
    by decide, by decide, by decide, by decide, by decide, by decide⟩

/-- C2 amended: when a candidate whose `hash1` matches fails the bounds
(integrity) check, the lookup aborts immediately with NotFound — it
does not continue the collision chain (only hash mismatches and key
mismatches continue it). -/
theorem C2_bounds_violation_aborts (ctx : MCCtx) (name : List Nat) (g : Nat)
    (st : BufState) (limit : Int) (allocOk : Bool) (now : Int)
    (fill : Nat → Nat) (slot fuel : Nat) (r : MCRec)
    (hv : ctx.valid = true)
    (hslot : ctx.hashTable.getD (ctx.hashFn (name ++ [0])) mcInvalidVal = slot)
    (hw : slot < ctx.dtSize)
    (hrec : ctx.records slot = some r)
    (hh : r.hash1 = ctx.hashFn (name ++ [0]))
    (hb : ctx.dtSize < slot + r.payloadOffset ∨
          ctx.dtSize < slot + r.keyOffset + name.length) :
    sss_nss_mc_initgroups_dyn ctx name g st limit allocOk now fill (fuel + 1)
      = some (ENOENT, st, ctx.activeThreads) := by
  unfold sss_nss_mc_initgroups_dyn
  rw [if_pos hv]
  dsimp only
  rw [hslot, lookupLoop]
  have hw' : MC_SLOT_WITHIN_BOUNDS slot ctx.dtSize = true := by
    simp [MC_SLOT_WITHIN_BOUNDS, hw]
  rw [if_pos hw']
  simp only [hrec]
  rw [if_neg (by simp [hh]), if_pos hb]
  simp

/-- C2 witness: in `ctxC2` the only examined candidate is out of
bounds, and the call reports NotFound with the buffer untouched. -/
theorem C2_bounds_violation_aborts_witness :
    sss_nss_mc_initgroups_dyn ctxC2 [65] 0 ⟨0, 5, [0, 0, 0, 0, 0]⟩ (-1) true 5
        (fun _ => 0) 1
      = some (ENOENT, ⟨0, 5, [0, 0, 0, 0, 0]⟩, 7) :=
  C2_bounds_violation_aborts ctxC2 [65] 0 ⟨0, 5, [0, 0, 0, 0, 0]⟩ (-1) true 5
    (fun _ => 0) 0 0 recA (by decide) (by decide) (by decide) rfl
    (by decide) (by decide)

/-- C3: for every lookup call that returns (with any outcome), the
reader count after the call equals the reader count before the call:
the modelled `sss_nss_mc_get_ctx` increments it once and the single
`done:` exit path decrements it exactly once
(nss_mc_initgr.c:157). -/
theorem C3_reader_count_balanced (ctx : MCCtx) (name : List Nat) (g : Nat)
    (st : BufState) (limit : Int) (allocOk : Bool) (now : Int)
    (fill : Nat → Nat) (fuel ret : Nat) (st' : BufState) (readers : Nat)
    (h : sss_nss_mc_initgroups_dyn ctx name g st limit allocOk now fill fuel
          = some (ret, st', readers)) :
    readers = ctx.activeThreads := by
  unfold sss_nss_mc_initgroups_dyn at h
  by_cases hv : ctx.valid = true
  · rw [if_pos hv] at h
    dsimp only at h
    cases hl : lookupLoop ctx name (ctx.hashFn (name ++ [0])) st limit allocOk
        now fill (ctx.hashTable.getD (ctx.hashFn (name ++ [0])) mcInvalidVal)
        fuel with
    | none => rw [hl] at h; simp at h
    | some p =>
      rw [hl] at h
      rcases p with ⟨a, b⟩
      dsimp only at h
      simp only [Option.some.injEq, Prod.mk.injEq] at h
      obtain ⟨-, -, h3⟩ := h
      omega
  · rw [if_neg hv] at h
    simp only [Option.some.injEq, Prod.mk.injEq] at h
    exact h.2.2.symm

/-- C3 witness: a successful lookup against `ctxHit` leaves the reader
count at its pre-call value 7. -/
theorem C3_reader_count_balanced_witness : (7 : Nat) = ctxHit.activeThreads :=
  C3_reader_count_balanced ctxHit [65] 0 ⟨0, 3, [0, 0, 0]⟩ (-1) true 5
    (fun _ => 0) 1 EOK ⟨3, 3, [11, 12, 13]⟩ 7 (by decide)

/-- C7: a matching, in-bounds record whose `expire` time is strictly
before the current time makes the lookup return EINVAL (the Expired
status, distinct from the ENOENT NotFound status), with the buffer —
cursor, capacity and contents — unchanged. -/
theorem C7_expired (ctx : MCCtx) (name : List Nat) (g : Nat) (st : BufState)
    (limit : Int) (allocOk : Bool) (now : Int) (fill : Nat → Nat)
    (slot fuel : Nat) (r : MCRec)
    (hv : ctx.valid = true)
    (hslot : ctx.hashTable.getD (ctx.hashFn (name ++ [0])) mcInvalidVal = slot)
    (hw : slot < ctx.dtSize)
    (hrec : ctx.records slot = some r)
    (hh : r.hash1 = ctx.hashFn (name ++ [0]))
    (hpb : slot + r.payloadOffset ≤ ctx.dtSize)
    (hkb : slot + r.keyOffset + name.length ≤ ctx.dtSize)
    (hkey : r.key = name)
    (hexp : r.expire < now) :
    sss_nss_mc_initgroups_dyn ctx name g st limit allocOk now fill (fuel + 1)
        = some (EINVAL, st, ctx.activeThreads)
      ∧ EINVAL ≠ ENOENT := by
  refine ⟨?_, by decide⟩
  rw [lookup_hit ctx name g st limit allocOk now fill slot fuel r hv hslot hw
    hrec hh hpb hkb hkey]
  rw [parse_expired r st limit allocOk now fill hexp]

/-- C7 witness: at time 2000 the record of `ctxHit` (expiry 1000) is
expired; the call returns EINVAL and the buffer is unchanged. -/
theorem C7_expired_witness :
    sss_nss_mc_initgroups_dyn ctxHit [65] 0 ⟨1, 3, [4, 5, 6]⟩ (-1) true 2000
        (fun _ => 0) 1
      = some (EINVAL, ⟨1, 3, [4, 5, 6]⟩, 7) ∧ EINVAL ≠ ENOENT :=
  C7_expired ctxHit [65] 0 ⟨1, 3, [4, 5, 6]⟩ (-1) true 2000 (fun _ => 0) 0 0
    recHit (by decide) (by decide) (by decide) rfl (by decide) (by decide)
    (by decide) (by decide) (by decide)

/-- C8: when the matching record is live but the buffer must grow and
the reallocation fails, the lookup returns ENOMEM with the buffer —
contents, capacity and cursor — unmodified, and the reader count is
still released (final reader count equals the pre-call value). -/
theorem C8_alloc_failure (ctx : MCCtx) (name : List Nat) (g : Nat)
    (st : BufState) (limit : Int) (now : Int) (fill : Nat → Nat)
    (slot fuel : Nat) (r : MCRec)
    (hv : ctx.valid = true)
    (hslot : ctx.hashTable.getD (ctx.hashFn (name ++ [0])) mcInvalidVal = slot)
    (hw : slot < ctx.dtSize)
    (hrec : ctx.records slot = some r)
    (hh : r.hash1 = ctx.hashFn (name ++ [0]))
    (hpb : slot + r.payloadOffset ≤ ctx.dtSize)
    (hkb : slot + r.keyOffset + name.length ≤ ctx.dtSize)
    (hkey : r.key = name)
    (hexp : ¬ r.expire < now)
    (hlt : st.size - st.start < (r.members : Int)) :
    sss_nss_mc_initgroups_dyn ctx name g st limit false now fill (fuel + 1)
      = some (ENOMEM, st, ctx.activeThreads) := by
  rw [lookup_hit ctx name g st limit false now fill slot fuel r hv hslot hw
    hrec hh hpb hkb hkey]
  rw [parse_grow_nomem r st limit now fill hexp hlt]

/-- C8 witness: a two-entry buffer cannot hold the three gids of
`recHit`; with the reallocation failing, the call returns ENOMEM, the
buffer is exactly as before, and the reader count is back to 7. -/
theorem C8_alloc_failure_witness :
    sss_nss_mc_initgroups_dyn ctxHit [65] 0 ⟨0, 2, [8, 9]⟩ (-1) false 5
        (fun _ => 0) 1
      = some (ENOMEM, ⟨0, 2, [8, 9]⟩, 7) :=
  C8_alloc_failure ctxHit [65] 0 ⟨0, 2, [8, 9]⟩ (-1) 5 (fun _ => 0) 0 0 recHit
    (by decide) (by decide) (by decide) rfl (by decide) (by decide) (by decide)
    (by decide) (by decide) (by decide)

/-- C9: when the initial hash-table slot for the key lies outside
`[0, extent)` (in particular when it is the Invalid sentinel), the
lookup returns ENOENT with the buffer — cursor included — unchanged,
and the reader count released. -/
theorem C9_invalid_slot_notfound (ctx : MCCtx) (name : List Nat) (g : Nat)
    (st : BufState) (limit : Int) (allocOk : Bool) (now : Int)
    (fill : Nat → Nat) (fuel : Nat)
    (hv : ctx.valid = true)
    (hs : ctx.dtSize ≤ ctx.hashTable.getD (ctx.hashFn (name ++ [0])) mcInvalidVal) :
    sss_nss_mc_initgroups_dyn ctx name g st limit allocOk now fill (fuel + 1)
      = some (ENOENT, st, ctx.activeThreads) := by
  unfold sss_nss_mc_initgroups_dyn
  rw [if_pos hv]
  dsimp only
  rw [lookupLoop]
  rw [if_neg (by simp only [MC_SLOT_WITHIN_BOUNDS, decide_eq_true_eq]; omega)]
  simp

/-- C9 witness: in `ctxMiss` every hash-index entry is the Invalid
sentinel; the lookup reports NotFound and leaves the buffer (cursor 2)
unchanged. -/
theorem C9_invalid_slot_notfound_witness :
    sss_nss_mc_initgroups_dyn ctxMiss [65] 0 ⟨2, 3, [4, 5, 6]⟩ (-1) true 5
        (fun _ => 0) 1
      = some (ENOENT, ⟨2, 3, [4, 5, 6]⟩, 7) :=
  C9_invalid_slot_notfound ctxMiss [65] 0 ⟨2, 3, [4, 5, 6]⟩ (-1) true 5
    (fun _ => 0) 0 (by decide) (by decide)

/-- C6: for a key present in the cache with an unexpired record whose
payload is `[g1, g2, g3]` and a buffer with cursor 0 and capacity at
least 3, the lookup returns Success (EOK), the cursor becomes 3, and
the first three buffer entries are `g1, g2, g3` in record order. -/
theorem C6_exact_match (ctx : MCCtx) (name : List Nat) (g g1 g2 g3 : Nat)
    (st : BufState) (limit : Int) (allocOk : Bool) (now : Int)
    (fill : Nat → Nat) (slot fuel : Nat) (r : MCRec)
    (hv : ctx.valid = true)
    (hslot : ctx.hashTable.getD (ctx.hashFn (name ++ [0])) mcInvalidVal = slot)
    (hw : slot < ctx.dtSize)
    (hrec : ctx.records slot = some r)
    (hh : r.hash1 = ctx.hashFn (name ++ [0]))
    (hpb : slot + r.payloadOffset ≤ ctx.dtSize)
    (hkb : slot + r.keyOffset + name.length ≤ ctx.dtSize)
    (hkey : r.key = name)
    (hexp : ¬ r.expire < now)
    (hm : r.members = 3)
    (hg : r.gids = [g1, g2, g3])
    (hst : st.start = 0)
    (hsz : (3 : Int) ≤ st.size)
    (hlen : (st.groups.length : Int) = st.size) :
    sss_nss_mc_initgroups_dyn ctx name g st limit allocOk now fill (fuel + 1)
      = some (EOK, ⟨3, st.size, [g1, g2, g3] ++ st.groups.drop 3⟩,
          ctx.activeThreads) := by
  have hfit : ¬ st.size - st.start < (r.members : Int) := by
    rw [hm, hst]; push_cast; omega
  rw [lookup_hit ctx name g st limit allocOk now fill slot fuel r hv hslot hw
    hrec hh hpb hkb hkey]
  rw [parse_fit r st limit allocOk now fill hexp hfit]
  rw [copyGids_append r.gids r.members st.groups st.start 0 (by omega)
    (by omega) (by simp [hm, hg])]
  rw [hm, hg, hst]
  norm_num

/-- C6 witness: looking `"A"` up in `ctxHit` with an empty cursor-0,
capacity-3 buffer yields Success with the buffer `[11, 12, 13]` and
cursor 3. -/
theorem C6_exact_match_witness :
    sss_nss_mc_initgroups_dyn ctxHit [65] 0 ⟨0, 3, [0, 0, 0]⟩ (-1) true 5
        (fun _ => 0) 1
      = some (EOK, ⟨3, 3, [11, 12, 13]⟩, 7) :=
  C6_exact_match ctxHit [65] 0 11 12 13 ⟨0, 3, [0, 0, 0]⟩ (-1) true 5
    (fun _ => 0) 0 0 recHit (by decide) (by decide) (by decide) rfl (by decide)
    (by decide) (by decide) (by decide) (by decide) (by decide) (by decide)
    (by decide) (by decide) (by decide)

/-- C10: the hard limit only constrains the growth path.  When the
buffer's free tail already fits the payload
(`capacity - start >= payload_count`), the growth branch is skipped and
its limit clamping with it: all `payload_count` entries are copied and
the cursor advances to `start + payload_count`, even though
`hard_limit > 0` and `start + payload_count` exceeds the hard limit. -/
theorem C10_limit_only_on_growth (ctx : MCCtx) (name : List Nat) (g : Nat)
    (st : BufState) (limit : Int) (allocOk : Bool) (now : Int)
    (fill : Nat → Nat) (slot fuel : Nat) (r : MCRec)
    (hv : ctx.valid = true)
    (hslot : ctx.hashTable.getD (ctx.hashFn (name ++ [0])) mcInvalidVal = slot)
    (hw : slot < ctx.dtSize)
    (hrec : ctx.records slot = some r)
    (hh : r.hash1 = ctx.hashFn (name ++ [0]))
    (hpb : slot + r.payloadOffset ≤ ctx.dtSize)
    (hkb : slot + r.keyOffset + name.length ≤ ctx.dtSize)
    (hkey : r.key = name)
    (hexp : ¬ r.expire < now)
    (hfit : (r.members : Int) ≤ st.size - st.start)
    (hlim : 0 < limit)
    (hover : limit < st.start + (r.members : Int))
    (h0 : 0 ≤ st.start)
    (hlen : st.start.toNat + r.members ≤ st.groups.length)
    (hgl : r.gids.length = r.members) :
    sss_nss_mc_initgroups_dyn ctx name g st limit allocOk now fill (fuel + 1)
      = some (EOK, ⟨st.start + r.members, st.size,
          st.groups.take st.start.toNat ++ r.gids
            ++ st.groups.drop (st.start.toNat + r.members)⟩,
          ctx.activeThreads) := by
  rw [lookup_hit ctx name g st limit allocOk now fill slot fuel r hv hslot hw
    hrec hh hpb hkb hkey]
  rw [parse_fit r st limit allocOk now fill hexp (by omega)]
  rw [copyGids_append r.gids r.members st.groups st.start 0 h0 hlen (by omega)]
  have htake : r.gids.take r.members = r.gids := by
    rw [← hgl]; exact List.take_length r.gids
  rw [List.drop_zero, htake]

/-- C10 witness: cursor 2, capacity 7, hard limit 3, payload count 5:
the free tail fits, so all five gids are copied and the cursor reaches
7, past the hard limit 3. -/
theorem C10_limit_only_on_growth_witness :
    sss_nss_mc_initgroups_dyn ctxG5 [65] 0 ⟨2, 7, [1, 2, 3, 4, 5, 6, 7]⟩ 3
        true 5 (fun _ => 0) 1
      = some (EOK, ⟨7, 7, [1, 2, 11, 12, 13, 14, 15]⟩, 7) :=
  C10_limit_only_on_growth ctxG5 [65] 0 ⟨2, 7, [1, 2, 3, 4, 5, 6, 7]⟩ 3 true 5
    (fun _ => 0) 0 0 recG5 (by decide) (by decide) (by decide) rfl (by decide)
    (by decide) (by decide) (by decide) (by decide) (by decide) (by decide)
    (by decide) (by decide) (by decide) (by decide)

/-- C4: when the matching record is live, its payload does not fit the
free tail, and `hard_limit > 0` with `capacity + payload_count >
hard_limit`, the buffer is grown to capacity exactly `hard_limit`, only
`hard_limit - start` payload entries are copied (into
`[start, hard_limit)`), and the call still returns Success — no
truncation error is signalled. -/
theorem C4_capped_growth (ctx : MCCtx) (name : List Nat) (g : Nat)
    (st : BufState) (limit : Int) (now : Int) (fill : Nat → Nat)
    (slot fuel : Nat) (r : MCRec)
    (hv : ctx.valid = true)
    (hslot : ctx.hashTable.getD (ctx.hashFn (name ++ [0])) mcInvalidVal = slot)
    (hw : slot < ctx.dtSize)
    (hrec : ctx.records slot = some r)
    (hh : r.hash1 = ctx.hashFn (name ++ [0]))
    (hpb : slot + r.payloadOffset ≤ ctx.dtSize)
    (hkb : slot + r.keyOffset + name.length ≤ ctx.dtSize)
    (hkey : r.key = name)
    (hexp : ¬ r.expire < now)
    (hlt : st.size - st.start < (r.members : Int))
    (hc : 0 < limit ∧ limit < st.size + (r.members : Int))
    (h0 : 0 ≤ st.start) (h1 : st.start ≤ st.size)
    (hlen : (st.groups.length : Int) = st.size)
    (hsl : st.start ≤ limit)
    (hls : limit ≤ st.start + (r.members : Int))
    (hgl : r.gids.length = r.members) :
    sss_nss_mc_initgroups_dyn ctx name g st limit true now fill (fuel + 1)
      = some (EOK, ⟨limit, limit,
          st.groups.take st.start.toNat
            ++ r.gids.take (limit - st.start).toNat⟩,
          ctx.activeThreads) := by
  rw [lookup_hit ctx name g st limit true now fill slot fuel r hv hslot hw
    hrec hh hpb hkb hkey]
  rw [parse_grow_clamp r st limit now fill hexp hlt hc hsl]
  rw [copyGids_append r.gids (limit - st.start).toNat
    (reallocList st.groups limit.toNat fill) st.start 0 h0
    (by rw [reallocList_length]; omega) (by omega)]
  rw [reallocList_take st.groups limit.toNat st.start.toNat fill (by omega)
    (by omega)]
  have harith : st.start.toNat + (limit - st.start).toNat = limit.toNat := by
    omega
  rw [harith]
  have hdrop : (reallocList st.groups limit.toNat fill).drop limit.toNat = [] :=
    List.drop_eq_nil_of_le
      (le_of_eq (reallocList_length st.groups limit.toNat fill))
  rw [hdrop]
  simp

/-- C4 witness: cursor 2, capacity 2, hard limit 5, payload count 5:
the buffer grows to capacity exactly 5, the three gids 11, 12, 13 land
in positions 2, 3, 4, and the call returns Success. -/
theorem C4_capped_growth_witness :
    sss_nss_mc_initgroups_dyn ctxG5 [65] 0 ⟨2, 2, [91, 92]⟩ 5 true 5
        (fun _ => 0) 1
      = some (EOK, ⟨5, 5, [91, 92, 11, 12, 13]⟩, 7) :=
  C4_capped_growth ctxG5 [65] 0 ⟨2, 2, [91, 92]⟩ 5 5 (fun _ => 0) 0 0 recG5
    (by decide) (by decide) (by decide) rfl (by decide) (by decide) (by decide)
    (by decide) (by decide) (by decide) (by decide) (by decide) (by decide)
    (by decide) (by decide) (by decide) (by decide)

/-- C5: first conjunct — for every terminating lookup call on a
well-formed buffer (cursor within capacity, capacity equal to the
allocated length, cursor within any positive hard limit), the buffer
entries below the cursor are preserved bit-for-bit on every outcome.
Second conjunct — the growth scenario: cursor 2, capacity 2, no hard
limit, payload count 5: the buffer grows to capacity 7, entries
`[0, 2)` are preserved, and entries `[2, 7)` receive the record's five
group identifiers in order. -/
theorem C5_untouched_below_cursor :
    (∀ (ctx : MCCtx) (name : List Nat) (g : Nat) (st : BufState) (limit : Int)
       (allocOk : Bool) (now : Int) (fill : Nat → Nat) (fuel ret : Nat)
       (st' : BufState) (readers : Nat),
       0 ≤ st.start → st.start ≤ st.size → (st.groups.length : Int) = st.size →
       (0 < limit → st.start ≤ limit) →
       sss_nss_mc_initgroups_dyn ctx name g st limit allocOk now fill fuel
         = some (ret, st', readers) →
       st'.groups.take st.start.toNat = st.groups.take st.start.toNat)
    ∧ (∀ (ctx : MCCtx) (name : List Nat) (g a0 a1 : Nat) (limit : Int)
         (now : Int) (fill : Nat → Nat) (slot fuel : Nat) (r : MCRec),
         ctx.valid = true →
         ctx.hashTable.getD (ctx.hashFn (name ++ [0])) mcInvalidVal = slot →
         slot < ctx.dtSize →
         ctx.records slot = some r →
         r.hash1 = ctx.hashFn (name ++ [0]) →
         slot + r.payloadOffset ≤ ctx.dtSize →
         slot + r.keyOffset + name.length ≤ ctx.dtSize →
         r.key = name →
         ¬ r.expire < now →
         r.members = 5 →
         r.gids.length = 5 →
         limit ≤ 0 →
         sss_nss_mc_initgroups_dyn ctx name g ⟨2, 2, [a0, a1]⟩ limit true now
             fill (fuel + 1)
           = some (EOK, ⟨7, 7, [a0, a1] ++ r.gids⟩, ctx.activeThreads)) := by
  constructor
  · intro ctx name g st limit allocOk now fill fuel ret st' readers h0 h1 h2 h3 h
    unfold sss_nss_mc_initgroups_dyn at h
    by_cases hv : ctx.valid = true
    · rw [if_pos hv] at h
      dsimp only at h
      cases hl : lookupLoop ctx name (ctx.hashFn (name ++ [0])) st limit
          allocOk now fill
          (ctx.hashTable.getD (ctx.hashFn (name ++ [0])) mcInvalidVal)
          fuel with
      | none => rw [hl] at h; simp at h
      | some p =>
        rw [hl] at h
        rcases p with ⟨pret, pst⟩
        dsimp only at h
        simp only [Option.some.injEq, Prod.mk.injEq] at h
        obtain ⟨-, hstb, -⟩ := h
        rcases lookupLoop_cases ctx name (ctx.hashFn (name ++ [0])) st limit
            allocOk now fill fuel _ pret pst hl with hcase | ⟨r, hr⟩
        · rw [← hstb, hcase]
        · have hpst : pst = (sss_nss_mc_parse_result r st limit allocOk now
              fill).2 := by
            rw [← hr]
          rw [← hstb, hpst]
          exact parse_frame r st limit allocOk now fill h0 h1 h2 h3
    · rw [if_neg hv] at h
      simp only [Option.some.injEq, Prod.mk.injEq] at h
      rw [← h.2.1]
  · intro ctx name g a0 a1 limit now fill slot fuel r hv hslot hw hrec hh hpb
      hkb hkey hexp hm hgl hlim
    rw [lookup_hit ctx name g ⟨2, 2, [a0, a1]⟩ limit true now fill slot fuel r
      hv hslot hw hrec hh hpb hkb hkey]
    have hlt : (⟨2, 2, [a0, a1]⟩ : BufState).size
        - (⟨2, 2, [a0, a1]⟩ : BufState).start < (r.members : Int) := by
      rw [hm]; norm_num
    have hnc : ¬ (0 < limit
        ∧ limit < (⟨2, 2, [a0, a1]⟩ : BufState).size + (r.members : Int)) := by
      intro hcon; omega
    rw [parse_grow_noclamp r ⟨2, 2, [a0, a1]⟩ limit now fill hexp hlt hnc]
    rw [hm]
    dsimp only
    have e2 : ((2 : Int) + ((5 : Nat) : Int)).toNat = 7 := by decide
    have e1 : ((2 : Int) + ((5 : Nat) : Int)) = 7 := by norm_num
    rw [e2, e1]
    rw [copyGids_append r.gids 5 (reallocList [a0, a1] 7 fill) 2 0
      (by norm_num) (by simp [reallocList_length]) (by omega)]
    rw [reallocList_take [a0, a1] 7 (2 : Int).toNat fill (by norm_num)
      (by norm_num)]
    have hdrop : (reallocList [a0, a1] 7 fill).drop ((2 : Int).toNat + 5) = [] :=
      List.drop_eq_nil_of_le
        (le_of_eq (reallocList_length [a0, a1] 7 fill))
    rw [hdrop]
    have htake : r.gids.take 5 = r.gids := by
      rw [← hgl]; exact List.take_length r.gids
    rw [List.drop_zero, htake]
    simp

/-- C5 witness: first conjunct applied to a growing lookup against
`ctxHit` (the entry below cursor 1 is preserved); second conjunct
applied to `ctxG5` with buffer `[91, 92]` at cursor 2 (the buffer
becomes `[91, 92, 11, 12, 13, 14, 15]`). -/
theorem C5_untouched_below_cursor_witness :
    ([4, 11, 12, 13, 0, 0] : List Nat).take 1 = ([4, 5, 6] : List Nat).take 1
    ∧ sss_nss_mc_initgroups_dyn ctxG5 [65] 0 ⟨2, 2, [91, 92]⟩ (-1) true 5
        (fun _ => 0) 1
      = some (EOK, ⟨7, 7, [91, 92, 11, 12, 13, 14, 15]⟩, 7) :=
  ⟨C5_untouched_below_cursor.1 ctxHit [65] 0 ⟨1, 3, [4, 5, 6]⟩ (-1) true 5
      (fun _ => 0) 1 EOK ⟨4, 6, [4, 11, 12, 13, 0, 0]⟩ 7 (by decide)
      (by decide) (by decide) (by decide) (by decide),
   C5_untouched_below_cursor.2 ctxG5 [65] 0 91 92 (-1) 5 (fun _ => 0) 0 0
      recG5 (by decide) (by decide) (by decide) rfl (by decide) (by decide)
      (by decide) (by decide) (by decide) (by decide) (by decide) (by decide)⟩

end SssMc
